import Mathlib

/-!
Shallow embedding of the "processed files" UI of the llama-stack repository:
the files list page (`src/llama_stack/ui/app/logs/files/page.tsx`, component
`FilesPage`) and the per-file detail page (component `FileDetailPage`).

The list page keeps a registry of `ProcessedFile` records in React state,
loads it from the localStorage slot `"llama-stack-processed-files"` in a
mount effect, persists it back in a save effect that fires whenever the
dependencies `[files, isLoading]` change and is guarded by `!isLoading`,
and inserts new records produced by `handleUpload` (a fetch to
`/api/v1/file-processors/process-upload` followed by validation of the
response's `content`).

The embedding uses explicit state passing: one `PageState` record holds the
React state hooks (`files`, `isUploading`, `selectedFile`, `isLoading`),
the durable localStorage slot, the log of toasts surfaced to the user, the
`crypto.randomUUID` invocation counter and the in-flight request.  User and
network interactions are `Event`s; `step` applies one event and then runs
the save effect exactly when its dependency list changed, mirroring React's
effect semantics.
-/

/-- Record stored by the pages; mirrors `interface ProcessedFile` in
`page.tsx` (fields `id`, `filename`, `content`, `processedAt`). -/
structure ProcessedFile where
  id : String
  filename : String
  content : String
  processedAt : String
deriving DecidableEq, Repr

/-- Semantic model of the string held in the localStorage slot
`"llama-stack-processed-files"`.  `jsonOf fs` is the string
`JSON.stringify(fs)` (always nonempty, it at least holds `[]`);
`emptyStr` is the empty string `""`; `malformed` is any nonempty string on
which `JSON.parse` throws. -/
inductive StoredString where
  | jsonOf (fs : List ProcessedFile)
  | emptyStr
  | malformed
deriving DecidableEq, Repr

/-- JavaScript truthiness of the stored string, as tested by
`if (stored)` in the load effects: only the empty string is falsy. -/
def StoredString.truthy : StoredString → Bool
  | .emptyStr => false
  | _ => true

/-- Model of `JSON.parse(stored)` as a list of records: succeeds exactly on
a serialized registry, throws (`none`) otherwise. -/
def parseJSON : StoredString → Option (List ProcessedFile)
  | .jsonOf fs => some fs
  | _ => none

/-- The raw `File` object picked in the file input; only its `name` is
consumed by `handleUpload`. -/
structure FileHandle where
  name : String
deriving DecidableEq, Repr

/-- Body of a successful conversion response, as read by
`await response.json()`: an optional `filename` and an optional `content`
(`none` models an absent / null JSON field). -/
structure ConvertResponse where
  filename : Option String
  content : Option String
deriving DecidableEq, Repr

/-- Outcome of the `fetch` round trip in `handleUpload`:
`networkFailure msg` — the fetch promise rejected with an error message;
`httpFailure statusText` — the response arrived with `response.ok` false;
`ok resp` — the response arrived with a success status and parsed body. -/
inductive FetchOutcome where
  | networkFailure (msg : String)
  | httpFailure (statusText : String)
  | ok (resp : ConvertResponse)
deriving DecidableEq, Repr

/-- Messages surfaced to the user through `toast.error` / `toast.success`. -/
inductive Toast where
  | errorT (msg : String)
  | successT (msg : String)
deriving DecidableEq, Repr

/-- JavaScript falsiness of an optional string field, as tested by
`!result.content` and `result.filename || ...`: absent fields and the
empty string are falsy. -/
def jsFalsy : Option String → Bool
  | none => true
  | some s => s == ""

/-- Oracle model of `crypto.randomUUID()`: the n-th invocation returns an
opaque string determined by the invocation counter; distinct invocations
return distinct strings (freshness), which is the only property the code
relies on. -/
def genUUID (n : Nat) : String := String.mk (List.replicate n 'u')

/-- Whole state of the `FilesPage` component together with its environment:
the four `useState` hooks, the durable localStorage slot (`none` = absent),
the toasts surfaced so far (most recent first), the `crypto.randomUUID`
invocation counter, the file captured by an in-flight `handleUpload` call
(none when no request is pending) and the number of conversion requests
issued so far. -/
structure PageState where
  files : List ProcessedFile
  isUploading : Bool
  selectedFile : Option FileHandle
  isLoading : Bool
  storage : Option StoredString
  toasts : List Toast
  uuidCounter : Nat
  pendingRequest : Option FileHandle
  requestCount : Nat
deriving DecidableEq, Repr

/-- State of `FilesPage` at first render, over a given initial content of
the durable slot: `useState` initializers `[]`, `false`, `null`, `true`. -/
def initState (slot : Option StoredString) : PageState :=
  { files := []
    isUploading := false
    selectedFile := none
    isLoading := true
    storage := slot
    toasts := []
    uuidCounter := 0
    pendingRequest := none
    requestCount := 0 }

/-- Registry read by the mount load effect: `localStorage.getItem` followed
by the `if (stored)` truthiness test and `JSON.parse` inside
`try`/`catch`; on an absent, empty or unparsable representation `setFiles`
is never called, so `files` keeps its previous value `fallback`. -/
def loadStoredFiles (slot : Option StoredString) (fallback : List ProcessedFile) :
    List ProcessedFile :=
  match slot with
  | none => fallback
  | some st =>
      if st.truthy then
        match parseJSON st with
        | some fs => fs
        | none => fallback
      else fallback

/-- Mount load effect of `FilesPage` (deps `[]`, so it runs once, while
`isLoading` is still true): reads the slot, possibly `setFiles`, and in the
`finally` block `setIsLoading(false)`.  No toast is ever emitted here; a
parse failure only reaches `console.error`. -/
def loadEffect (s : PageState) : PageState :=
  if s.isLoading then
    { s with files := loadStoredFiles s.storage s.files, isLoading := false }
  else s

/-- Save effect body of `FilesPage`: guarded by `if (!isLoading)`, writes
`JSON.stringify(files)` into the slot. -/
def saveEffect (s : PageState) : PageState :=
  if s.isLoading then s
  else { s with storage := some (StoredString.jsonOf s.files) }

/-- Stored handler `handleFileSelect`: takes `event.target.files?.[0]` and
calls `setSelectedFile` only when a file is present. -/
def handleFileSelect (s : PageState) (file? : Option FileHandle) : PageState :=
  match file? with
  | none => s
  | some file => { s with selectedFile := some file }

/-- Disabled predicate of the Upload button:
`disabled={!selectedFile || isUploading}`. -/
def uploadButtonDisabled (s : PageState) : Bool :=
  s.selectedFile.isNone || s.isUploading

/-- First half of `handleUpload`, up to the `await fetch(...)` suspension
point: the `!selectedFile` guard with its toast, `setIsUploading(true)`,
and the dispatch of one conversion request capturing the selected file. -/
def handleUploadBegin (s : PageState) : PageState :=
  match s.selectedFile with
  | none => { s with toasts := Toast.errorT "Please select a file to upload" :: s.toasts }
  | some file =>
      { s with isUploading := true
               pendingRequest := some file
               requestCount := s.requestCount + 1 }

/-- Click on the Upload button: a disabled button fires no `onClick`, an
enabled one calls `handleUpload` (modelled up to its suspension point). -/
def clickUploadButton (s : PageState) : PageState :=
  if uploadButtonDisabled s then s else handleUploadBegin s

/-- Second half of `handleUpload`, resumed when the fetch settles with
`outcome` at wall-clock time `now`: the `response.ok` check, the
`!result.content` validation, construction and insertion of the new
`ProcessedFile`, the success toast and clearing of the selection on
success; the `catch` block's error toast on any thrown error; and the
`finally` block's `setIsUploading(false)`. -/
def handleUploadFinish (s : PageState) (outcome : FetchOutcome) (now : String) : PageState :=
  match s.pendingRequest with
  | none => s
  | some file =>
      let s₁ : PageState :=
        match outcome with
        | .networkFailure msg =>
            { s with toasts := Toast.errorT ("Error processing file: " ++ msg) :: s.toasts }
        | .httpFailure statusText =>
            { s with toasts :=
                Toast.errorT ("Error processing file: Failed to process file: " ++ statusText)
                  :: s.toasts }
        | .ok resp =>
            if jsFalsy resp.content then
              { s with toasts :=
                  Toast.errorT "Error processing file: API returned no content" :: s.toasts }
            else
              let newFile : ProcessedFile :=
                { id := genUUID s.uuidCounter
                  filename := if jsFalsy resp.filename then file.name else resp.filename.getD ""
                  content := resp.content.getD ""
                  processedAt := now }
              { s with files := newFile :: s.files
                       uuidCounter := s.uuidCounter + 1
                       toasts :=
                         Toast.successT ("File processed successfully: " ++ newFile.filename
                           ++ " has been converted to markdown") :: s.toasts
                       selectedFile := none }
      { s₁ with isUploading := false, pendingRequest := none }

/-- Interleaving points of the page: resolution of the mount load effect,
a pick in the file input, a click on the Upload button, and resolution of
an in-flight conversion request. -/
inductive Event where
  | loadResolve
  | selectFile (file? : Option FileHandle)
  | clickUpload
  | uploadResolve (outcome : FetchOutcome) (now : String)
deriving DecidableEq, Repr

/-- Dispatch of one event to the corresponding handler. -/
def applyEvent (s : PageState) : Event → PageState
  | .loadResolve => loadEffect s
  | .selectFile file? => handleFileSelect s file?
  | .clickUpload => clickUploadButton s
  | .uploadResolve outcome now => handleUploadFinish s outcome now

/-- One step of the page: apply the event, then run the save effect exactly
when its dependency list `[files, isLoading]` changed, as React does. -/
def step (s : PageState) (e : Event) : PageState :=
  let s' := applyEvent s e
  if s'.files = s.files ∧ s'.isLoading = s.isLoading then s' else saveEffect s'

/-- Execution of a sequence of events from a state. -/
def run (s : PageState) (es : List Event) : PageState := es.foldl step s

/-- State of the `FileDetailPage` component: the resolved record (if any)
and the loading flag. -/
structure DetailState where
  file : Option ProcessedFile
  isLoading : Bool
deriving DecidableEq, Repr

/-- Load effect of `FileDetailPage` (deps `[fileId]`, so it runs once per
navigation id): reads the slot, and on a truthy stored string parses it
and resolves the record with `files.find(f => f.id === fileId)`; any parse
error is caught; `finally` clears `isLoading`. -/
def loadDetail (slot : Option StoredString) (fileId : String) : DetailState :=
  { file :=
      match slot with
      | none => none
      | some st =>
          if st.truthy then
            match parseJSON st with
            | some fs => fs.find? (fun f => f.id == fileId)
            | none => none
          else none
    isLoading := false }

/-- Render outcomes of `FileDetailPage`: the skeleton while loading, the
"File Not Found" presentation, or the content view of a record. -/
inductive DetailRender where
  | loadingView
  | notFound
  | contentView (file : ProcessedFile)
deriving DecidableEq, Repr

/-- Render function of `FileDetailPage`: skeleton when `isLoading`, the
not-found block when `file` is null, otherwise the markdown view of the
record. -/
def renderDetail (s : DetailState) : DetailRender :=
  if s.isLoading then .loadingView
  else
    match s.file with
    | none => .notFound
    | some f => .contentView f

/-- Concrete page state with a conversion request in flight, used to
instantiate the upload theorems: the file `orig.pdf` is selected, its
request has been dispatched and `isUploading` is set. -/
def pendingState : PageState :=
  { files := []
    isUploading := true
    selectedFile := some ⟨"orig.pdf"⟩
    isLoading := false
    storage := some (StoredString.jsonOf [])
    toasts := []
    uuidCounter := 0
    pendingRequest := some ⟨"orig.pdf"⟩
    requestCount := 1 }

/-- Events of one complete successful upload of `doc.pdf` whose conversion
response carries no `filename` and the content `# doc`, resolving at
time `t`. -/
def uploadEvents (t : String) : List Event :=
  [Event.selectFile (some ⟨"doc.pdf"⟩), Event.clickUpload,
   Event.uploadResolve (FetchOutcome.ok ⟨none, some "# doc"⟩) t]

/-- Event sequence of one successful upload per timestamp in `ts`, in
order. -/
def successTrace : List String → List Event
  | [] => []
  | t :: ts => uploadEvents t ++ successTrace ts

/-- Invariant carried through every execution that starts from an absent
durable slot: the record ids are pairwise distinct, every id was produced
by a `crypto.randomUUID` invocation that already happened, and the slot
stays absent while the initial load is pending. -/
def idsOk (s : PageState) : Prop :=
  (s.files.map (fun r => r.id)).Nodup ∧
  (∀ r ∈ s.files, ∃ k, k < s.uuidCounter ∧ r.id = genUUID k) ∧
  (s.isLoading = true → s.storage = none)

/-! General lemmas about one step of the page. -/

theorem genUUID_injective : Function.Injective genUUID := by
  intro a b h
  have h2 := congrArg (fun s => s.data.length) h
  simpa [genUUID] using h2


theorem loadEffect_storage (s : PageState) : (loadEffect s).storage = s.storage := by
  unfold loadEffect
  split <;> rfl

theorem loadEffect_isLoading (s : PageState) : (loadEffect s).isLoading = false := by
  unfold loadEffect
  split
  · rfl
  · simp_all

theorem handleFileSelect_storage (s : PageState) (file? : Option FileHandle) :
    (handleFileSelect s file?).storage = s.storage := by
  cases file? <;> rfl

theorem handleFileSelect_isLoading (s : PageState) (file? : Option FileHandle) :
    (handleFileSelect s file?).isLoading = s.isLoading := by
  cases file? <;> rfl

theorem handleUploadBegin_storage (s : PageState) :
    (handleUploadBegin s).storage = s.storage := by
  unfold handleUploadBegin
  split <;> rfl

theorem handleUploadBegin_isLoading (s : PageState) :
    (handleUploadBegin s).isLoading = s.isLoading := by
  unfold handleUploadBegin
  split <;> rfl

theorem clickUploadButton_storage (s : PageState) :
    (clickUploadButton s).storage = s.storage := by
  unfold clickUploadButton
  split
  · rfl
  · exact handleUploadBegin_storage s

theorem clickUploadButton_isLoading (s : PageState) :
    (clickUploadButton s).isLoading = s.isLoading := by
  unfold clickUploadButton
  split
  · rfl
  · exact handleUploadBegin_isLoading s

theorem handleUploadFinish_storage (s : PageState) (o : FetchOutcome) (now : String) :
    (handleUploadFinish s o now).storage = s.storage := by
  unfold handleUploadFinish
  split
  · rfl
  · dsimp only
    split <;> first | rfl | (split <;> rfl)

theorem handleUploadFinish_isLoading (s : PageState) (o : FetchOutcome) (now : String) :
    (handleUploadFinish s o now).isLoading = s.isLoading := by
  unfold handleUploadFinish
  split
  · rfl
  · dsimp only
    split <;> first | rfl | (split <;> rfl)

theorem applyEvent_storage (s : PageState) (e : Event) :
    (applyEvent s e).storage = s.storage := by
  cases e with
  | loadResolve => exact loadEffect_storage s
  | selectFile file? => exact handleFileSelect_storage s file?
  | clickUpload => exact clickUploadButton_storage s
  | uploadResolve outcome now => exact handleUploadFinish_storage s outcome now

theorem applyEvent_isLoading_mono (s : PageState) (e : Event)
    (h : (applyEvent s e).isLoading = true) : s.isLoading = true := by
  cases e with
  | loadResolve =>
      have h2 := loadEffect_isLoading s
      rw [show applyEvent s Event.loadResolve = loadEffect s from rfl, h2] at h
      cases h
  | selectFile file? =>
      rw [show applyEvent s (Event.selectFile file?) = handleFileSelect s file? from rfl,
        handleFileSelect_isLoading] at h
      exact h
  | clickUpload =>
      rw [show applyEvent s Event.clickUpload = clickUploadButton s from rfl,
        clickUploadButton_isLoading] at h
      exact h
  | uploadResolve outcome now =>
      rw [show applyEvent s (Event.uploadResolve outcome now) = handleUploadFinish s outcome now
          from rfl, handleUploadFinish_isLoading] at h
      exact h

theorem saveEffect_isLoading (s : PageState) : (saveEffect s).isLoading = s.isLoading := by
  unfold saveEffect
  split <;> rfl

theorem saveEffect_files (s : PageState) : (saveEffect s).files = s.files := by
  unfold saveEffect
  split <;> rfl

theorem saveEffect_selectedFile (s : PageState) :
    (saveEffect s).selectedFile = s.selectedFile := by
  unfold saveEffect
  split <;> rfl

theorem saveEffect_isUploading (s : PageState) :
    (saveEffect s).isUploading = s.isUploading := by
  unfold saveEffect
  split <;> rfl

theorem saveEffect_toasts (s : PageState) : (saveEffect s).toasts = s.toasts := by
  unfold saveEffect
  split <;> rfl

theorem saveEffect_of_isLoading (s : PageState) (h : s.isLoading = true) :
    saveEffect s = s := by
  unfold saveEffect
  simp [h]

theorem step_isLoading (s : PageState) (e : Event) :
    (step s e).isLoading = (applyEvent s e).isLoading := by
  simp only [step]
  split
  · rfl
  · exact saveEffect_isLoading _

theorem step_files (s : PageState) (e : Event) :
    (step s e).files = (applyEvent s e).files := by
  simp only [step]
  split
  · rfl
  · exact saveEffect_files _

theorem step_selectedFile (s : PageState) (e : Event) :
    (step s e).selectedFile = (applyEvent s e).selectedFile := by
  simp only [step]
  split
  · rfl
  · exact saveEffect_selectedFile _

theorem step_isUploading (s : PageState) (e : Event) :
    (step s e).isUploading = (applyEvent s e).isUploading := by
  simp only [step]
  split
  · rfl
  · exact saveEffect_isUploading _

theorem step_toasts (s : PageState) (e : Event) :
    (step s e).toasts = (applyEvent s e).toasts := by
  simp only [step]
  split
  · rfl
  · exact saveEffect_toasts _

theorem step_storage_of_isLoading (s : PageState) (e : Event)
    (h : (step s e).isLoading = true) : (step s e).storage = s.storage := by
  have hs' : (applyEvent s e).isLoading = true := by rw [← step_isLoading]; exact h
  simp only [step]
  split
  · exact applyEvent_storage s e
  · rw [saveEffect_of_isLoading _ hs']
    exact applyEvent_storage s e

theorem run_preserves (P : PageState → Prop) (hP : ∀ s e, P s → P (step s e)) :
    ∀ (es : List Event) (s : PageState), P s → P (run s es) := by
  intro es
  induction es with
  | nil => intro s h; exact h
  | cons e es ih =>
      intro s h
      exact ih (step s e) (hP s e h)

theorem handleUploadFinish_success (s : PageState) (f : FileHandle) (resp : ConvertResponse)
    (now : String) (hp : s.pendingRequest = some f) (hc : jsFalsy resp.content = false) :
    handleUploadFinish s (FetchOutcome.ok resp) now
      = { s with
          files := { id := genUUID s.uuidCounter
                     filename := if jsFalsy resp.filename then f.name else resp.filename.getD ""
                     content := resp.content.getD ""
                     processedAt := now } :: s.files
          uuidCounter := s.uuidCounter + 1
          toasts := Toast.successT ("File processed successfully: "
              ++ (if jsFalsy resp.filename then f.name else resp.filename.getD "")
              ++ " has been converted to markdown") :: s.toasts
          selectedFile := none
          isUploading := false
          pendingRequest := none } := by
  simp [handleUploadFinish, hp, hc]

theorem handleUploadFinish_failure (s : PageState) (f : FileHandle) (outcome : FetchOutcome)
    (now : String) (hp : s.pendingRequest = some f)
    (h : (∃ m, outcome = FetchOutcome.networkFailure m) ∨
         (∃ st, outcome = FetchOutcome.httpFailure st) ∨
         (∃ resp, outcome = FetchOutcome.ok resp ∧ jsFalsy resp.content = true)) :
    ∃ m, handleUploadFinish s outcome now
        = { s with toasts := Toast.errorT m :: s.toasts
                   isUploading := false
                   pendingRequest := none } := by
  rcases h with ⟨m, rfl⟩ | ⟨st, rfl⟩ | ⟨resp, rfl, hc⟩
  · exact ⟨"Error processing file: " ++ m, by simp [handleUploadFinish, hp]⟩
  · exact ⟨"Error processing file: Failed to process file: " ++ st,
      by simp [handleUploadFinish, hp]⟩
  · exact ⟨"Error processing file: API returned no content",
      by simp [handleUploadFinish, hp, hc]⟩

theorem step_uploadResolve_failure (s : PageState) (f : FileHandle) (outcome : FetchOutcome)
    (now : String) (hp : s.pendingRequest = some f)
    (h : (∃ m, outcome = FetchOutcome.networkFailure m) ∨
         (∃ st, outcome = FetchOutcome.httpFailure st) ∨
         (∃ resp, outcome = FetchOutcome.ok resp ∧ jsFalsy resp.content = true)) :
    ∃ m, step s (Event.uploadResolve outcome now)
        = { s with toasts := Toast.errorT m :: s.toasts
                   isUploading := false
                   pendingRequest := none } := by
  obtain ⟨m, hm⟩ := handleUploadFinish_failure s f outcome now hp h
  refine ⟨m, ?_⟩
  have h1 : applyEvent s (Event.uploadResolve outcome now) = handleUploadFinish s outcome now := rfl
  simp [step, h1, hm]

theorem step_uploadResolve_success (s : PageState) (f : FileHandle) (resp : ConvertResponse)
    (now : String) (hp : s.pendingRequest = some f) (hc : jsFalsy resp.content = false)
    (hl : s.isLoading = false) :
    step s (Event.uploadResolve (FetchOutcome.ok resp) now)
      = { s with
          files := { id := genUUID s.uuidCounter
                     filename := if jsFalsy resp.filename then f.name else resp.filename.getD ""
                     content := resp.content.getD ""
                     processedAt := now } :: s.files
          uuidCounter := s.uuidCounter + 1
          toasts := Toast.successT ("File processed successfully: "
              ++ (if jsFalsy resp.filename then f.name else resp.filename.getD "")
              ++ " has been converted to markdown") :: s.toasts
          selectedFile := none
          isUploading := false
          pendingRequest := none
          storage := some (StoredString.jsonOf
            ({ id := genUUID s.uuidCounter
               filename := if jsFalsy resp.filename then f.name else resp.filename.getD ""
               content := resp.content.getD ""
               processedAt := now } :: s.files)) } := by
  have h1 : applyEvent s (Event.uploadResolve (FetchOutcome.ok resp) now)
      = handleUploadFinish s (FetchOutcome.ok resp) now := rfl
  have h2 := handleUploadFinish_success s f resp now hp hc
  simp only [step, h1, h2]
  rw [if_neg]
  · simp [saveEffect, hl]
  · rintro ⟨h3, -⟩
    exact List.cons_ne_self _ _ h3

/-! Claim theorems. -/

/-- C1: a persist triggered by a mutation never runs before the initial
load has completed.  After any sequence of events on the list page, if the
load of the stored representation has not yet resolved (`isLoading` is
still true) then the durable slot holds exactly its initial content: no
write to it has occurred. -/
theorem c1_no_persist_before_load (slot : Option StoredString) (es : List Event)
    (h : (run (initState slot) es).isLoading = true) :
    (run (initState slot) es).storage = slot := by
  refine run_preserves (fun s => s.isLoading = true → s.storage = slot) ?_ es (initState slot)
    (fun _ => rfl) h
  intro s e hs h2
  have h3 : s.isLoading = true :=
    applyEvent_isLoading_mono s e (by rw [← step_isLoading]; exact h2)
  rw [step_storage_of_isLoading s e h2]
  exact hs h3

/-- C1 witness: a file is selected and the Upload button clicked while the
load is still pending; the slot is untouched. -/
theorem c1_no_persist_before_load_witness :
    (run (initState (some StoredString.malformed))
        [Event.selectFile (some ⟨"a.pdf"⟩), Event.clickUpload]).isLoading = true ∧
    (run (initState (some StoredString.malformed))
        [Event.selectFile (some ⟨"a.pdf"⟩), Event.clickUpload]).storage
      = some StoredString.malformed :=
  ⟨by decide,
   c1_no_persist_before_load (some StoredString.malformed)
     [Event.selectFile (some ⟨"a.pdf"⟩), Event.clickUpload] (by decide)⟩

/-- C4: while an upload is in flight (`isUploading` is true) the Upload
button is disabled, so a click on it fires no handler: the state is left
exactly unchanged — no second conversion request, no second record, nothing
queued. -/
theorem c4_serialized_uploads (s : PageState) (h : s.isUploading = true) :
    step s Event.clickUpload = s := by
  have hd : uploadButtonDisabled s = true := by simp [uploadButtonDisabled, h]
  have h1 : applyEvent s Event.clickUpload = s := by
    simp [applyEvent, clickUploadButton, hd]
  simp [step, h1]

/-- C4 witness: clicking Upload in the concrete in-flight state changes
nothing. -/
theorem c4_serialized_uploads_witness :
    pendingState.isUploading = true ∧ step pendingState Event.clickUpload = pendingState :=
  ⟨rfl, c4_serialized_uploads pendingState rfl⟩

/-- C5: when the durable representation is absent, empty, or fails to
parse as JSON, the load completes with the empty registry, and no toast is
surfaced to the user. -/
theorem c5_failsoft_load (slot : Option StoredString)
    (h : slot = none ∨ slot = some StoredString.emptyStr ∨ slot = some StoredString.malformed) :
    (step (initState slot) Event.loadResolve).files = [] ∧
    (step (initState slot) Event.loadResolve).isLoading = false ∧
    (step (initState slot) Event.loadResolve).toasts = [] := by
  rcases h with rfl | rfl | rfl <;> exact ⟨rfl, rfl, rfl⟩

/-- C5 witness: load over a malformed representation yields the empty
registry, load completed, no toast. -/
theorem c5_failsoft_load_witness :
    (step (initState (some StoredString.malformed)) Event.loadResolve).files = [] ∧
    (step (initState (some StoredString.malformed)) Event.loadResolve).isLoading = false ∧
    (step (initState (some StoredString.malformed)) Event.loadResolve).toasts = [] :=
  c5_failsoft_load (some StoredString.malformed) (Or.inr (Or.inr rfl))

/-- C10: as soon as the initial load completes, the save effect fires
(its `isLoading` dependency changed) and rewrites the durable slot with the
serialization of the in-memory registry, even though no insert has
occurred; in particular a representation that was malformed at load time is
overwritten with the serialized empty array. -/
theorem c10_overwrite_on_load (slot : Option StoredString) :
    (step (initState slot) Event.loadResolve).storage
      = some (StoredString.jsonOf ((step (initState slot) Event.loadResolve).files)) ∧
    (slot = some StoredString.malformed →
      (step (initState slot) Event.loadResolve).storage
        = some (StoredString.jsonOf [])) := by
  constructor
  · match slot with
    | none => rfl
    | some StoredString.emptyStr => rfl
    | some StoredString.malformed => rfl
    | some (StoredString.jsonOf fs) =>
        simp [step, applyEvent, loadEffect, initState, loadStoredFiles, parseJSON,
          StoredString.truthy, saveEffect]
  · rintro rfl
    rfl

/-- C10 witness: after loading over a malformed slot, the slot holds the
serialized empty registry. -/
theorem c10_overwrite_on_load_witness :
    (step (initState (some StoredString.malformed)) Event.loadResolve).storage
      = some (StoredString.jsonOf []) :=
  (c10_overwrite_on_load (some StoredString.malformed)).2 rfl

/-- C2: a conversion response is accepted only with non-null, non-empty
content.  A non-success response status, or a success-status response
whose `content` field is missing or the empty string, leaves the registry
unchanged (no `ProcessedFile` record is created) and surfaces an error
toast to the user. -/
theorem c2_content_required (s : PageState) (f : FileHandle) (outcome : FetchOutcome)
    (now : String) (hp : s.pendingRequest = some f)
    (h : (∃ st, outcome = FetchOutcome.httpFailure st) ∨
         (∃ resp, outcome = FetchOutcome.ok resp ∧ jsFalsy resp.content = true)) :
    (step s (Event.uploadResolve outcome now)).files = s.files ∧
    ∃ m, (step s (Event.uploadResolve outcome now)).toasts = Toast.errorT m :: s.toasts := by
  obtain ⟨m, hm⟩ := step_uploadResolve_failure s f outcome now hp (Or.inr h)
  rw [hm]
  exact ⟨rfl, m, rfl⟩

/-- C2 witness: a success-status response with `content` equal to the
empty string produces no record and an error toast. -/
theorem c2_content_required_witness :
    (step pendingState
        (Event.uploadResolve (FetchOutcome.ok ⟨some "f.md", some ""⟩) "t0")).files
      = pendingState.files ∧
    ∃ m, (step pendingState
        (Event.uploadResolve (FetchOutcome.ok ⟨some "f.md", some ""⟩) "t0")).toasts
      = Toast.errorT m :: pendingState.toasts :=
  c2_content_required pendingState ⟨"orig.pdf"⟩ (FetchOutcome.ok ⟨some "f.md", some ""⟩) "t0" rfl
    (Or.inr ⟨⟨some "f.md", some ""⟩, rfl, by decide⟩)

/-- C6: on every failed upload — network failure, non-success status, or
unusable content — an error toast describing the cause is surfaced, the
registry is unchanged, the pending file selection is unchanged, and the
upload state returns to idle (`isUploading` is false). -/
theorem c6_failure_recovery (s : PageState) (f : FileHandle) (outcome : FetchOutcome)
    (now : String) (hp : s.pendingRequest = some f)
    (h : (∃ m, outcome = FetchOutcome.networkFailure m) ∨
         (∃ st, outcome = FetchOutcome.httpFailure st) ∨
         (∃ resp, outcome = FetchOutcome.ok resp ∧ jsFalsy resp.content = true)) :
    (step s (Event.uploadResolve outcome now)).files = s.files ∧
    (step s (Event.uploadResolve outcome now)).selectedFile = s.selectedFile ∧
    (step s (Event.uploadResolve outcome now)).isUploading = false ∧
    ∃ m, (step s (Event.uploadResolve outcome now)).toasts = Toast.errorT m :: s.toasts := by
  obtain ⟨m, hm⟩ := step_uploadResolve_failure s f outcome now hp h
  rw [hm]
  exact ⟨rfl, rfl, rfl, m, rfl⟩

/-- C6 witness: a network failure leaves registry and selection unchanged,
returns the upload state to idle and surfaces an error toast. -/
theorem c6_failure_recovery_witness :
    (step pendingState
        (Event.uploadResolve (FetchOutcome.networkFailure "fetch failed") "t0")).files
      = pendingState.files ∧
    (step pendingState
        (Event.uploadResolve (FetchOutcome.networkFailure "fetch failed") "t0")).selectedFile
      = pendingState.selectedFile ∧
    (step pendingState
        (Event.uploadResolve (FetchOutcome.networkFailure "fetch failed") "t0")).isUploading
      = false ∧
    ∃ m, (step pendingState
        (Event.uploadResolve (FetchOutcome.networkFailure "fetch failed") "t0")).toasts
      = Toast.errorT m :: pendingState.toasts :=
  c6_failure_recovery pendingState ⟨"orig.pdf"⟩ (FetchOutcome.networkFailure "fetch failed") "t0"
    rfl (Or.inl ⟨"fetch failed", rfl⟩)

/-- C7 counterexample: the claim reads the record's `filename` as the
response's `filename` whenever that field is present.  With a success
response carrying the present-but-empty filename `""` and content `# md`,
the code's `result.filename || selectedFile.name` falls back to the
original file name `orig.pdf`, not the response's `""`. -/
theorem c7_filename_counterexample :
    (step pendingState
        (Event.uploadResolve (FetchOutcome.ok ⟨some "", some "# md"⟩) "t0")).files.map
      (fun r => r.filename) = ["orig.pdf"] ∧ "orig.pdf" ≠ "" :=
  ⟨by decide, by decide⟩

/-- C7 (amended): on every successful upload the inserted record has the
next fresh id, filename equal to the response's filename or — if that is
absent or empty — the originally selected file's name, content equal to
the response's content, `processedAt` equal to the current timestamp; it
is prepended to the registry and the pending selection is cleared. -/
theorem c7_success_record (s : PageState) (f : FileHandle) (resp : ConvertResponse)
    (now : String) (hp : s.pendingRequest = some f) (hc : jsFalsy resp.content = false) :
    (step s (Event.uploadResolve (FetchOutcome.ok resp) now)).files
      = { id := genUUID s.uuidCounter
          filename := if jsFalsy resp.filename then f.name else resp.filename.getD ""
          content := resp.content.getD ""
          processedAt := now } :: s.files ∧
    (step s (Event.uploadResolve (FetchOutcome.ok resp) now)).selectedFile = none := by
  have h1 : applyEvent s (Event.uploadResolve (FetchOutcome.ok resp) now)
      = handleUploadFinish s (FetchOutcome.ok resp) now := rfl
  have h2 := handleUploadFinish_success s f resp now hp hc
  constructor
  · rw [step_files, h1, h2]
  · rw [step_selectedFile, h1, h2]

/-- C7 witness: the concrete end-to-end success case of the spec, with
response filename `report.pdf` and content `# Report`. -/
theorem c7_success_record_witness :
    (step pendingState (Event.uploadResolve
        (FetchOutcome.ok ⟨some "report.pdf", some "# Report"⟩) "t1")).files
      = { id := genUUID pendingState.uuidCounter
          filename := if jsFalsy (some "report.pdf")
                      then (⟨"orig.pdf"⟩ : FileHandle).name
                      else (some "report.pdf").getD ""
          content := (some "# Report").getD ""
          processedAt := "t1" } :: pendingState.files ∧
    (step pendingState (Event.uploadResolve
        (FetchOutcome.ok ⟨some "report.pdf", some "# Report"⟩) "t1")).selectedFile = none :=
  c7_success_record pendingState ⟨"orig.pdf"⟩ ⟨some "report.pdf", some "# Report"⟩ "t1" rfl
    (by decide)

/-- C9: the detail view resolves the record by exactly one linear lookup
(`find`) over the stored registry at view-entry time; when some record
matches the navigation id it renders that record's content view, and when
no record matches it renders the not-found presentation (a total function,
no exception). -/
theorem c9_detail_lookup (fs : List ProcessedFile) (fileId : String) :
    (loadDetail (some (StoredString.jsonOf fs)) fileId).file
      = fs.find? (fun r => r.id == fileId) ∧
    ((∀ r ∈ fs, r.id ≠ fileId) →
      renderDetail (loadDetail (some (StoredString.jsonOf fs)) fileId)
        = DetailRender.notFound) ∧
    (∀ r, fs.find? (fun r => r.id == fileId) = some r →
      renderDetail (loadDetail (some (StoredString.jsonOf fs)) fileId)
        = DetailRender.contentView r) := by
  refine ⟨rfl, ?_, ?_⟩
  · intro hnone
    have h0 : fs.find? (fun r => r.id == fileId) = none := by
      apply List.find?_eq_none.2
      intro r hr
      simpa using hnone r hr
    show renderDetail ⟨fs.find? (fun r => r.id == fileId), false⟩ = DetailRender.notFound
    rw [h0]
    rfl
  · intro r hr
    show renderDetail ⟨fs.find? (fun r => r.id == fileId), false⟩ = DetailRender.contentView r
    rw [hr]
    rfl

/-- C9 witness: a registry with one record and a non-matching navigation
id renders the not-found presentation. -/
theorem c9_detail_lookup_witness :
    renderDetail (loadDetail (some (StoredString.jsonOf
        [{ id := "u", filename := "a.pdf", content := "# a", processedAt := "t0" }])) "missing")
      = DetailRender.notFound :=
  (c9_detail_lookup [{ id := "u", filename := "a.pdf", content := "# a", processedAt := "t0" }]
      "missing").2.1 (by decide)

theorem step_selectFile_some (s : PageState) (f : FileHandle) :
    step s (Event.selectFile (some f)) = { s with selectedFile := some f } := by
  have h1 : applyEvent s (Event.selectFile (some f)) = { s with selectedFile := some f } := rfl
  simp [step, h1]

theorem step_clickUpload_ready (s : PageState) (f : FileHandle) (hsel : s.selectedFile = some f)
    (hu : s.isUploading = false) :
    step s Event.clickUpload
      = { s with isUploading := true
                 pendingRequest := some f
                 requestCount := s.requestCount + 1 } := by
  have hd : uploadButtonDisabled s = false := by simp [uploadButtonDisabled, hsel, hu]
  have h1 : applyEvent s Event.clickUpload
      = { s with isUploading := true
                 pendingRequest := some f
                 requestCount := s.requestCount + 1 } := by
    simp [applyEvent, clickUploadButton, hd, handleUploadBegin, hsel]
  simp [step, h1]

theorem run_uploadEvents (s : PageState) (t : String) (hl : s.isLoading = false)
    (hu : s.isUploading = false) :
    run s (uploadEvents t)
      = { s with
          files := { id := genUUID s.uuidCounter, filename := "doc.pdf", content := "# doc",
                     processedAt := t } :: s.files
          uuidCounter := s.uuidCounter + 1
          toasts := Toast.successT
              "File processed successfully: doc.pdf has been converted to markdown" :: s.toasts
          selectedFile := none
          isUploading := false
          pendingRequest := none
          requestCount := s.requestCount + 1
          storage := some (StoredString.jsonOf
            ({ id := genUUID s.uuidCounter, filename := "doc.pdf", content := "# doc",
               processedAt := t } :: s.files)) } := by
  have hrun : run s (uploadEvents t)
      = step (step (step s (Event.selectFile (some ⟨"doc.pdf"⟩))) Event.clickUpload)
          (Event.uploadResolve (FetchOutcome.ok ⟨none, some "# doc"⟩) t) := rfl
  rw [hrun, step_selectFile_some]
  rw [step_clickUpload_ready { s with selectedFile := some ⟨"doc.pdf"⟩ } ⟨"doc.pdf"⟩ rfl hu]
  rw [step_uploadResolve_success
    { s with selectedFile := some ⟨"doc.pdf"⟩
             isUploading := true
             pendingRequest := some ⟨"doc.pdf"⟩
             requestCount := s.requestCount + 1 }
    ⟨"doc.pdf"⟩ ⟨none, some "# doc"⟩ t rfl (by decide) hl]
  rfl

theorem run_successTrace (ts : List String) :
    ∀ s : PageState, s.isLoading = false → s.isUploading = false →
      (run s (successTrace ts)).files.map (fun r => r.processedAt)
          = ts.reverse ++ s.files.map (fun r => r.processedAt) ∧
      (run s (successTrace ts)).isLoading = false ∧
      (run s (successTrace ts)).isUploading = false := by
  induction ts with
  | nil =>
      intro s hl hu
      exact ⟨by simp [successTrace, run], hl, hu⟩
  | cons t ts ih =>
      intro s hl hu
      have hsplit : run s (successTrace (t :: ts))
          = run (run s (uploadEvents t)) (successTrace ts) := by
        simp [successTrace, run, List.foldl_append]
      have hup := run_uploadEvents s t hl hu
      obtain ⟨h1, h2, h3⟩ := ih (run s (uploadEvents t)) (by rw [hup]; exact hl) (by rw [hup])
      refine ⟨?_, ?_, ?_⟩
      · rw [hsplit, h1, hup]
        simp
      · rw [hsplit]
        exact h2
      · rw [hsplit]
        exact h3

/-- C3: every successful upload prepends its record, so after N successful
uploads with timestamps t1, …, tN (in upload order) starting from an empty
registry, the registry holds the records most-recent-first: their
`processedAt` values read tN, …, t1. -/
theorem c3_most_recent_first (ts : List String) :
    (run (step (initState none) Event.loadResolve) (successTrace ts)).files.map
      (fun r => r.processedAt) = ts.reverse := by
  have h0 : (step (initState none) Event.loadResolve).isLoading = false := by decide
  have h1 : (step (initState none) Event.loadResolve).isUploading = false := by decide
  have h2 : (step (initState none) Event.loadResolve).files = [] := by decide
  obtain ⟨h, -, -⟩ := run_successTrace ts _ h0 h1
  rw [h, h2]
  simp

theorem saveEffect_idsOk (s : PageState) (h : idsOk s) : idsOk (saveEffect s) := by
  obtain ⟨h1, h2, h3⟩ := h
  unfold saveEffect
  split
  · exact ⟨h1, h2, h3⟩
  · rename_i hcond
    exact ⟨h1, h2, fun hl => absurd hl hcond⟩

theorem loadEffect_idsOk (s : PageState) (h : idsOk s) : idsOk (loadEffect s) := by
  obtain ⟨h1, h2, h3⟩ := h
  unfold loadEffect
  split
  · rename_i hl
    rw [h3 hl]
    exact ⟨h1, h2, fun hf => absurd hf Bool.false_ne_true⟩
  · exact ⟨h1, h2, h3⟩

theorem handleFileSelect_idsOk (s : PageState) (file? : Option FileHandle) (h : idsOk s) :
    idsOk (handleFileSelect s file?) := by
  obtain ⟨h1, h2, h3⟩ := h
  cases file?
  · exact ⟨h1, h2, h3⟩
  · exact ⟨h1, h2, h3⟩

theorem clickUploadButton_idsOk (s : PageState) (h : idsOk s) :
    idsOk (clickUploadButton s) := by
  obtain ⟨h1, h2, h3⟩ := h
  unfold clickUploadButton handleUploadBegin
  split
  · exact ⟨h1, h2, h3⟩
  · split
    · exact ⟨h1, h2, h3⟩
    · exact ⟨h1, h2, h3⟩

theorem handleUploadFinish_idsOk (s : PageState) (o : FetchOutcome) (now : String)
    (h : idsOk s) : idsOk (handleUploadFinish s o now) := by
  obtain ⟨h1, h2, h3⟩ := h
  unfold handleUploadFinish
  split
  · exact ⟨h1, h2, h3⟩
  · dsimp only
    split
    · exact ⟨h1, h2, h3⟩
    · exact ⟨h1, h2, h3⟩
    · split
      · exact ⟨h1, h2, h3⟩
      · refine ⟨?_, ?_, fun hl => h3 hl⟩
        · refine List.nodup_cons.2 ⟨?_, h1⟩
          intro hmem
          obtain ⟨r, hr, hid⟩ := List.mem_map.1 hmem
          obtain ⟨k, hk, hkid⟩ := h2 r hr
          have hkc : k = s.uuidCounter := genUUID_injective (by rw [← hkid, hid])
          omega
        · intro r hr
          rcases List.mem_cons.1 hr with hr | hr
          · exact ⟨s.uuidCounter, Nat.lt_succ_self _, by rw [hr]⟩
          · obtain ⟨k, hk, hkid⟩ := h2 r hr
            exact ⟨k, Nat.lt_succ_of_lt hk, hkid⟩

theorem applyEvent_idsOk (s : PageState) (e : Event) (h : idsOk s) :
    idsOk (applyEvent s e) := by
  cases e with
  | loadResolve => exact loadEffect_idsOk s h
  | selectFile file? => exact handleFileSelect_idsOk s file? h
  | clickUpload => exact clickUploadButton_idsOk s h
  | uploadResolve outcome now => exact handleUploadFinish_idsOk s outcome now h

theorem step_idsOk (s : PageState) (e : Event) (h : idsOk s) : idsOk (step s e) := by
  have h' := applyEvent_idsOk s e h
  simp only [step]
  split
  · exact h'
  · exact saveEffect_idsOk _ h'

/-- C8: starting from an absent durable slot, after any sequence of page
events — in particular any sequence of successful uploads — the ids of the
records held by the registry are pairwise distinct, because each record's
id came from a fresh `crypto.randomUUID` invocation. -/
theorem c8_unique_ids (es : List Event) :
    ((run (initState none) es).files.map (fun r => r.id)).Nodup :=
  (run_preserves idsOk step_idsOk es (initState none)
    ⟨List.nodup_nil, fun r hr => absurd hr (List.not_mem_nil r), fun _ => rfl⟩).1
